import Mathlib

/- Shallow embedding of the transaural-tauri CTC core
   (src-tauri/src/filter.rs, src-tauri/src/ctc_engine.rs, src-tauri/src/lib.rs).

   f32/f64 arithmetic is idealised as exact rational (or, for the geometry
   helpers that use sqrt and powf, real) arithmetic.  The f64 transcendental
   helpers (cos, sin, sqrt, 10^x) that only feed filter-coefficient
   construction are abstracted as function parameters, and the f64
   `is_finite` test is abstracted as a Bool-valued predicate `isFin`, so that
   the non-finite branch of the biquad remains representable. -/

/-- Machine epsilon of f64 (`f64::EPSILON` = 2^(-52)), the threshold of the
biquad denormal flush. -/
def f64_eps : ℚ := 1 / 2 ^ 52

/-- The exact rational value of the f64 constant `std::f64::consts::PI`. -/
def f64_pi : ℚ := 884279719003555 / 281474976710656

/-- Rust `f64::clamp(lo, hi)` on non-NaN values (ctc_engine.rs line 108). -/
def clampQ (x lo hi : ℚ) : ℚ := if x < lo then lo else if x > hi then hi else x

/-- Rust saturating `as i64` cast applied to an already-floored finite value.
(The NaN case of the source casts to 0, which is subsumed below by proving the
index bounds for every integer argument.) -/
def i64_sat_cast (z : ℤ) : ℤ := max (-(2 ^ 63)) (min (2 ^ 63 - 1) z)

/-- The three personalities of `PrimaryFilter` (filter.rs lines 3-7). -/
inductive PrimaryFilterType where
  | AllPass
  | HighPass
  | LowPass
deriving DecidableEq

/-- `PrimaryFilter` (filter.rs lines 13-18): a first-order section with state. -/
structure PrimaryFilter where
  filter_type : PrimaryFilterType
  alpha : ℚ
  prev_in : ℚ
  prev_out : ℚ
deriving DecidableEq

/-- `PrimaryFilter::all_pass` (filter.rs lines 21-28). -/
def PrimaryFilter.all_pass (alpha : ℚ) : PrimaryFilter :=
  ⟨.AllPass, alpha, 0, 0⟩

/-- `PrimaryFilter::process` (filter.rs lines 56-71), returning the output and
the updated filter. -/
def PrimaryFilter.process (f : PrimaryFilter) (input : ℚ) : ℚ × PrimaryFilter :=
  let out64 :=
    match f.filter_type with
    | .AllPass => f.alpha * input + f.prev_in - f.alpha * f.prev_out
    | .HighPass => f.alpha * (f.prev_out + input - f.prev_in)
    | .LowPass => f.prev_out + f.alpha * (input - f.prev_out)
  (out64, { f with prev_in := input, prev_out := out64 })

/-- The `iter_mut().fold(x, |acc, f| f.process(acc))` pattern of
`CtcEngine::process` (ctc_engine.rs line 78): thread a sample through a chain
of primary filters, returning the final sample and the updated chain. -/
def chainFold : List PrimaryFilter → ℚ → ℚ × List PrimaryFilter
  | [], x => (x, [])
  | f :: fs, x =>
    let yf := f.process x
    let zfs := chainFold fs yf.1
    (zfs.1, yf.2 :: zfs.2)

/-- `BiquadFilter` (filter.rs lines 74-79): normalized coefficients and
direct-form-II-transposed state. -/
structure BiquadFilter where
  b0 : ℚ
  b1 : ℚ
  b2 : ℚ
  a1 : ℚ
  a2 : ℚ
  z1 : ℚ
  z2 : ℚ
deriving DecidableEq

/-- `BiquadFilter::new` (filter.rs lines 82-92): store coefficients divided
by a0. -/
def BiquadFilter.new (b0 b1 b2 a0 a1 a2 : ℚ) : BiquadFilter :=
  ⟨b0 / a0, b1 / a0, b2 / a0, a1 / a0, a2 / a0, 0, 0⟩

/-- `BiquadFilter::low_pass` (filter.rs lines 94-108); `rcos`/`rsin` abstract
the f64 cosine and sine. -/
def BiquadFilter.low_pass (rcos rsin : ℚ → ℚ) (sample_rate cutoff : ℚ) : BiquadFilter :=
  let q : ℚ := 0.70710678118
  let omega := 2 * f64_pi * cutoff / sample_rate
  let cos_w := rcos omega
  let alpha := rsin omega / (2 * q)
  BiquadFilter.new ((1 - cos_w) / 2) (1 - cos_w) ((1 - cos_w) / 2)
    (1 + alpha) (-2 * cos_w) (1 - alpha)

/-- `BiquadFilter::high_pass` (filter.rs lines 110-124). -/
def BiquadFilter.high_pass (rcos rsin : ℚ → ℚ) (sample_rate cutoff : ℚ) : BiquadFilter :=
  let q : ℚ := 0.70710678118
  let omega := 2 * f64_pi * cutoff / sample_rate
  let cos_w := rcos omega
  let alpha := rsin omega / (2 * q)
  BiquadFilter.new ((1 + cos_w) / 2) (-(1 + cos_w)) ((1 + cos_w) / 2)
    (1 + alpha) (-2 * cos_w) (1 - alpha)

/-- `BiquadFilter::low_shelf` (filter.rs lines 126-142); `rsqrt` abstracts f64
square root and `rpow10` abstracts `10.0f64.powf`. -/
def BiquadFilter.low_shelf (rcos rsin rsqrt rpow10 : ℚ → ℚ)
    (sample_rate cutoff gain_db : ℚ) : BiquadFilter :=
  let q : ℚ := 0.707
  let a := rpow10 (gain_db / 40)
  let omega := 2 * f64_pi * cutoff / sample_rate
  let cos_w := rcos omega
  let beta := (a + 1 / a) * (1 / q - 1) + 2
  let alpha := rsin omega / 2 * rsqrt (max beta 0)
  BiquadFilter.new
    (a * ((a + 1) - (a - 1) * cos_w + 2 * rsqrt a * alpha))
    (2 * a * ((a - 1) - (a + 1) * cos_w))
    (a * ((a + 1) - (a - 1) * cos_w - 2 * rsqrt a * alpha))
    ((a + 1) + (a - 1) * cos_w + 2 * rsqrt a * alpha)
    (-2 * ((a - 1) + (a + 1) * cos_w))
    ((a + 1) + (a - 1) * cos_w - 2 * rsqrt a * alpha)

/-- `<BiquadFilter as Processable>::process` (filter.rs lines 145-160);
`isFin` abstracts the `output.is_finite()` test. -/
def BiquadFilter.process (f : BiquadFilter) (isFin : ℚ → Bool) (input : ℚ) :
    ℚ × BiquadFilter :=
  let output := f.b0 * input + f.z1
  if isFin output then
    (if |output| < f64_eps then 0 else output,
     { f with z1 := f.b1 * input - f.a1 * output + f.z2,
              z2 := f.b2 * input - f.a2 * output })
  else
    (0, { f with z1 := 0, z2 := 0 })

/-- Comparison model for claim C10's "unflushed filter": identical to
`BiquadFilter.process` except that a finite output is returned as computed,
without the `|y| < EPSILON` denormal flush. -/
def BiquadFilter.processUnflushed (f : BiquadFilter) (isFin : ℚ → Bool)
    (input : ℚ) : ℚ × BiquadFilter :=
  let output := f.b0 * input + f.z1
  if isFin output then
    (output,
     { f with z1 := f.b1 * input - f.a1 * output + f.z2,
              z2 := f.b2 * input - f.a2 * output })
  else
    (0, { f with z1 := 0, z2 := 0 })

/-- Index of the first interpolation sample in `CtcEngine::get_interpolated`
(ctc_engine.rs line 65): `(pos_floor as i64).rem_euclid(512i64) as usize`. -/
def interpIdxA (pos_floor : ℤ) : ℕ := (i64_sat_cast pos_floor % 512).toNat

/-- Index of the second interpolation sample (ctc_engine.rs line 66):
`(idx_a + 1) & 511`. -/
def interpIdxB (idx_a : ℕ) : ℕ := (idx_a + 1) &&& 511

lemma interpIdxA_lt (p : ℤ) : interpIdxA p < 512 := by
  unfold interpIdxA
  omega

lemma interpIdxB_lt (i : ℕ) : interpIdxB i < 512 := by
  unfold interpIdxB
  have h : (i + 1) &&& 511 = (i + 1) % 512 := Nat.and_pow_two_sub_one_eq_mod (i + 1) 9
  rw [h]
  exact Nat.mod_lt _ (by norm_num)

/-- `CtcEngine::get_interpolated` (ctc_engine.rs lines 60-75): fractional-delay
ring-buffer read with linear interpolation.  The two `get_unchecked` accesses
of the source appear as total `Fin 512` reads, justified by the index-bound
lemmas above. -/
def get_interpolated (buffer : Fin 512 → ℚ) (current_idx : ℕ) (delay : ℚ) : ℚ :=
  let read_pos : ℚ := (current_idx : ℚ) - delay
  let pos_floor : ℤ := ⌊read_pos⌋
  let idx_a : ℕ := interpIdxA pos_floor
  let idx_b : ℕ := interpIdxB idx_a
  let frac : ℚ := read_pos - (pos_floor : ℚ)
  let val_a := buffer ⟨idx_a, interpIdxA_lt pos_floor⟩
  let val_b := buffer ⟨idx_b, interpIdxB_lt idx_a⟩
  val_a + frac * (val_b - val_a)

/-- `CtcEngine` (ctc_engine.rs lines 3-23).  The 512-slot f64 ring buffers are
modelled as `Fin 512 → ℚ`; the write index `rb_idx` is kept in `Fin 512`,
mirroring the `(rb_idx + 1) % 512` update invariant. -/
structure CtcEngine where
  filter_a_l : List PrimaryFilter
  filter_a_r : List PrimaryFilter
  filter_b_l : List PrimaryFilter
  filter_b_r : List PrimaryFilter
  rb_l_0 : Fin 512 → ℚ
  rb_r_0 : Fin 512 → ℚ
  rb_idx : Fin 512
  main_delay_l : ℚ
  main_delay_r : ℚ
  rb_l_90 : Fin 512 → ℚ
  rb_r_90 : Fin 512 → ℚ
  low_pass_l : BiquadFilter
  low_pass_r : BiquadFilter
  high_pass_l : BiquadFilter
  high_pass_r : BiquadFilter
  low_shelf_l : BiquadFilter
  low_shelf_r : BiquadFilter
  ct_delay_l : ℚ
  ct_delay_r : ℚ

/-- `calc_allpass_coeffs` (ctc_engine.rs lines 112-125). -/
def calc_allpass_coeffs (sample_rate : ℚ) : List ℚ × List ℚ :=
  let poles_a : List ℚ :=
    [1.252477174013740, 5.567151121010343, 22.33405370220630, 121.1823101311035]
  let poles_b : List ℚ :=
    [0.470942544153024, 2.511195608677685, 9.736028549641775, 52.32115162453549]
  let calcCoeff := fun p : ℚ =>
    let omega := 2 * f64_pi * p * 150 / sample_rate
    (1 - omega) / (1 + omega)
  (poles_a.map calcCoeff, poles_b.map calcCoeff)

/-- `CtcEngine::new` (ctc_engine.rs lines 26-58).  The trigonometric helpers of
biquad construction are abstracted as parameters; like the source, the function
performs no validation whatsoever of its arguments. -/
def CtcEngine.new (rcos rsin rsqrt rpow10 : ℚ → ℚ) (sample_rate : ℚ)
    (ct_delays main_delays : ℚ × ℚ) (lp_cutoffs : ℚ × ℚ)
    (hp_cutoff ls_cutoff ls_gain : ℚ) : CtcEngine :=
  let coeffs := calc_allpass_coeffs sample_rate
  { filter_a_l := coeffs.1.map PrimaryFilter.all_pass
    filter_a_r := coeffs.1.map PrimaryFilter.all_pass
    filter_b_l := coeffs.2.map PrimaryFilter.all_pass
    filter_b_r := coeffs.2.map PrimaryFilter.all_pass
    rb_l_0 := fun _ => 0
    rb_r_0 := fun _ => 0
    rb_idx := 0
    main_delay_l := main_delays.1
    main_delay_r := main_delays.2
    rb_l_90 := fun _ => 0
    rb_r_90 := fun _ => 0
    low_pass_l := BiquadFilter.low_pass rcos rsin sample_rate lp_cutoffs.1
    low_pass_r := BiquadFilter.low_pass rcos rsin sample_rate lp_cutoffs.2
    high_pass_l := BiquadFilter.high_pass rcos rsin sample_rate hp_cutoff
    high_pass_r := BiquadFilter.high_pass rcos rsin sample_rate hp_cutoff
    low_shelf_l := BiquadFilter.low_shelf rcos rsin rsqrt rpow10 sample_rate ls_cutoff ls_gain
    low_shelf_r := BiquadFilter.low_shelf rcos rsin rsqrt rpow10 sample_rate ls_cutoff ls_gain
    ct_delay_l := ct_delays.1
    ct_delay_r := ct_delays.2 }

/-- `CtcEngine::process` (ctc_engine.rs lines 77-109), returning the clamped
stereo output together with the updated engine state. -/
def CtcEngine.process (e : CtcEngine) (isFin : ℚ → Bool) (l r : ℚ)
    (attenuation : ℚ) (amp_factors : Fin 4 → ℚ) : (ℚ × ℚ) × CtcEngine :=
  let l_in := l
  let r_in := r
  let fal := chainFold e.filter_a_l l_in
  let far := chainFold e.filter_a_r r_in
  let l_0 := fal.1
  let r_0 := far.1
  let ct_l_90_delayed := get_interpolated e.rb_l_90 (e.rb_idx : ℕ) e.ct_delay_l
  let ct_r_90_delayed := get_interpolated e.rb_r_90 (e.rb_idx : ℕ) e.ct_delay_r
  let lpl := e.low_pass_l.process isFin ct_l_90_delayed
  let lpr := e.low_pass_r.process isFin ct_r_90_delayed
  let ct_l_90 := lpl.1
  let ct_r_90 := lpr.1
  let res_l := l_0 * amp_factors 0 - ct_r_90 * attenuation * amp_factors 2
  let res_r := r_0 * amp_factors 3 - ct_l_90 * attenuation * amp_factors 1
  let lsl := e.low_shelf_l.process isFin res_l
  let lsr := e.low_shelf_r.process isFin res_r
  let rb_l_0' := Function.update e.rb_l_0 e.rb_idx lsl.1
  let rb_r_0' := Function.update e.rb_r_0 e.rb_idx lsr.1
  let out_l := get_interpolated rb_l_0' (e.rb_idx : ℕ) e.main_delay_l
  let out_r := get_interpolated rb_r_0' (e.rb_idx : ℕ) e.main_delay_r
  let fbl := chainFold e.filter_b_l l_in
  let fbr := chainFold e.filter_b_r r_in
  let hpl := e.high_pass_l.process isFin fbl.1
  let hpr := e.high_pass_r.process isFin fbr.1
  let rb_l_90' := Function.update e.rb_l_90 e.rb_idx hpl.1
  let rb_r_90' := Function.update e.rb_r_90 e.rb_idx hpr.1
  ((clampQ out_l (-1) 1, clampQ out_r (-1) 1),
   { e with
     filter_a_l := fal.2
     filter_a_r := far.2
     filter_b_l := fbl.2
     filter_b_r := fbr.2
     rb_l_0 := rb_l_0'
     rb_r_0 := rb_r_0'
     rb_idx := e.rb_idx + 1
     rb_l_90 := rb_l_90'
     rb_r_90 := rb_r_90'
     low_pass_l := lpl.2
     low_pass_r := lpr.2
     high_pass_l := hpl.2
     high_pass_r := hpr.2
     low_shelf_l := lsl.2
     low_shelf_r := lsr.2 })

/-- The direct-path A-chain output `l_0` computed by `CtcEngine::process`
(ctc_engine.rs line 83). -/
def CtcEngine.l_0 (e : CtcEngine) (l : ℚ) : ℚ := (chainFold e.filter_a_l l).1

/-- The direct-path A-chain output `r_0` (ctc_engine.rs line 84). -/
def CtcEngine.r_0 (e : CtcEngine) (r : ℚ) : ℚ := (chainFold e.filter_a_r r).1

/-- The low-pass-filtered left cancellation tap `ct_l_90` read from the 90°
ring at the configured cross-talk delay (ctc_engine.rs lines 86, 89). -/
def CtcEngine.ct_l_90 (e : CtcEngine) (isFin : ℚ → Bool) : ℚ :=
  (e.low_pass_l.process isFin
    (get_interpolated e.rb_l_90 (e.rb_idx : ℕ) e.ct_delay_l)).1

/-- The low-pass-filtered right cancellation tap `ct_r_90`
(ctc_engine.rs lines 87, 90). -/
def CtcEngine.ct_r_90 (e : CtcEngine) (isFin : ℚ → Bool) : ℚ :=
  (e.low_pass_r.process isFin
    (get_interpolated e.rb_r_90 (e.rb_idx : ℕ) e.ct_delay_r)).1

/-- The recursive cancellation sum `res_l` (ctc_engine.rs line 92). -/
def CtcEngine.res_l (e : CtcEngine) (isFin : ℚ → Bool) (l attenuation : ℚ)
    (amp_factors : Fin 4 → ℚ) : ℚ :=
  e.l_0 l * amp_factors 0 - e.ct_r_90 isFin * attenuation * amp_factors 2

/-- The recursive cancellation sum `res_r` (ctc_engine.rs line 93). -/
def CtcEngine.res_r (e : CtcEngine) (isFin : ℚ → Bool) (r attenuation : ℚ)
    (amp_factors : Fin 4 → ℚ) : ℚ :=
  e.r_0 r * amp_factors 3 - e.ct_l_90 isFin * attenuation * amp_factors 1

/-- `<[f32; 2] as Coords>::distance` (lib.rs lines 62-68): `dx.hypot(dy)`. -/
noncomputable def coords_distance (a b : ℝ × ℝ) : ℝ :=
  Real.sqrt ((a.1 - b.1) ^ 2 + (a.2 - b.2) ^ 2)

/-- `PositionCoords` (lib.rs lines 32-39). -/
structure PositionCoords where
  left_speaker : ℝ × ℝ
  right_speaker : ℝ × ℝ
  left_ear : ℝ × ℝ
  right_ear : ℝ × ℝ

/-- `calc_distance` (lib.rs lines 246-253). -/
noncomputable def calc_distance (pos : PositionCoords) : Fin 4 → ℝ :=
  ![coords_distance pos.left_speaker pos.left_ear,
    coords_distance pos.left_speaker pos.right_ear,
    coords_distance pos.right_speaker pos.left_ear,
    coords_distance pos.right_speaker pos.right_ear]

/-- `distances.into_iter().reduce(f32::min)` (lib.rs line 176). -/
noncomputable def min_distance (d : Fin 4 → ℝ) : ℝ :=
  min (min (min (d 0) (d 1)) (d 2)) (d 3)

/-- `distances.map(|d| (min_distance / d).powf(1.2) as f64)` (lib.rs
line 177), the per-path amplitude factors. -/
noncomputable def amp_factors_of (d : Fin 4 → ℝ) : Fin 4 → ℝ :=
  fun i => (min_distance d / d i) ^ (1.2 : ℝ)

/-- `calc_delay_frames` (lib.rs lines 255-263), returning
`(main_delays, ct_delays)`. -/
def calc_delay_frames (sample_rate : ℚ) (distances : Fin 4 → ℚ)
    (speed_of_sound : ℚ) : (ℚ × ℚ) × (ℚ × ℚ) :=
  let k := sample_rate / speed_of_sound
  let ls2le := distances 0 * k
  let ls2re := distances 1 * k
  let rs2le := distances 2 * k
  let rs2re := distances 3 * k
  let main_delays :=
    if ls2le > rs2re then ((0 : ℚ), ls2le - rs2re) else (rs2re - ls2le, (0 : ℚ))
  (main_delays, (max 1 |rs2le - ls2le|, max 1 |ls2re - rs2re|))

/-- Engine state used to exhibit output clamping: a freshly constructed engine
whose left main ring holds the (post-shelf, pre-main-delay) sample 7 in slot 0
and whose write index has advanced to 1 with main delay 1, so the next call
reads 7 from the main ring and clamps it. -/
def clipEngine : CtcEngine :=
  { CtcEngine.new (fun _ => 0) (fun _ => 0) (fun _ => 1) (fun _ => 1) 48000
      (1, 1) (1, 0) (200, 200) 20 100 0 with
    rb_l_0 := Function.update (fun _ => 0) ⟨0, by norm_num⟩ 7
    rb_idx := ⟨1, by norm_num⟩ }

lemma clampQ_mem (x lo hi : ℚ) (h : lo ≤ hi) :
    lo ≤ clampQ x lo hi ∧ clampQ x lo hi ≤ hi := by
  unfold clampQ
  split_ifs with h1 h2 <;> constructor <;> linarith

lemma get_interpolated_zero (current_idx : ℕ) (delay : ℚ) :
    get_interpolated (fun _ => 0) current_idx delay = 0 := by
  simp [get_interpolated]

lemma chainFold_all_pass_zero (L : List ℚ) :
    chainFold (L.map PrimaryFilter.all_pass) 0 = (0, L.map PrimaryFilter.all_pass) := by
  induction L with
  | nil => rfl
  | cons a L ih => simp [chainFold, PrimaryFilter.process, PrimaryFilter.all_pass, ih]

lemma biquad_process_zero (f : BiquadFilter) (hz1 : f.z1 = 0) (hz2 : f.z2 = 0) :
    f.process (fun _ => true) 0 = (0, f) := by
  obtain ⟨b0, b1, b2, a1, a2, z1, z2⟩ := f
  simp only at hz1 hz2
  subst hz1; subst hz2
  simp [BiquadFilter.process, f64_eps]

lemma get_interpolated_idx_one_delay_one (B : Fin 512 → ℚ) :
    get_interpolated B 1 1 = B ⟨0, by norm_num⟩ := by
  have h1 : ((1 : ℕ) : ℚ) - 1 = 0 := by norm_num
  have hA : interpIdxA 0 = 0 := by decide
  have hB : interpIdxB 0 = 1 := by decide
  simp [get_interpolated, h1, hA, hB]

lemma get_interpolated_idx_one_delay_zero (B : Fin 512 → ℚ) :
    get_interpolated B 1 0 = B ⟨1, by norm_num⟩ := by
  have h1 : ((1 : ℕ) : ℚ) - 0 = 1 := by norm_num
  have hfl : ⌊(1 : ℚ)⌋ = 1 := by norm_num
  have hA : interpIdxA 1 = 1 := by decide
  have hB : interpIdxB 1 = 2 := by decide
  simp [get_interpolated, h1, hfl, hA, hB]

/-- C1: for every engine state and all inputs, `CtcEngine::process` forms the
recursive cancellation sums exactly as
`res_l = l_0 * amp_factors[0] - ct_r_90 * attenuation * amp_factors[2]` and
`res_r = r_0 * amp_factors[3] - ct_l_90 * attenuation * amp_factors[1]`, where
`l_0`, `r_0` are the A-chain outputs of the current inputs and `ct_l_90`,
`ct_r_90` are the low-pass-filtered cancellation taps read from the 90° rings
at the configured cross-talk delays; the sums are observable as the values
written (through the low shelf) into the main rings at the write index.
`amp_factors` is ordered `[k_LL, k_LR, k_RL, k_RR]`, the order produced by
`calc_distance`. -/
theorem c1_process_cancellation_sums (isFin : ℚ → Bool) (e : CtcEngine)
    (l r attenuation : ℚ) (amp_factors : Fin 4 → ℚ) (pos : PositionCoords) :
    ((e.process isFin l r attenuation amp_factors).2.rb_l_0 e.rb_idx
        = (e.low_shelf_l.process isFin (e.res_l isFin l attenuation amp_factors)).1
      ∧ (e.process isFin l r attenuation amp_factors).2.rb_r_0 e.rb_idx
        = (e.low_shelf_r.process isFin (e.res_r isFin r attenuation amp_factors)).1)
    ∧ (e.res_l isFin l attenuation amp_factors
        = e.l_0 l * amp_factors 0 - e.ct_r_90 isFin * attenuation * amp_factors 2
      ∧ e.res_r isFin r attenuation amp_factors
        = e.r_0 r * amp_factors 3 - e.ct_l_90 isFin * attenuation * amp_factors 1)
    ∧ (calc_distance pos 0 = coords_distance pos.left_speaker pos.left_ear
      ∧ calc_distance pos 1 = coords_distance pos.left_speaker pos.right_ear
      ∧ calc_distance pos 2 = coords_distance pos.right_speaker pos.left_ear
      ∧ calc_distance pos 3 = coords_distance pos.right_speaker pos.right_ear) := by
  refine ⟨⟨?_, ?_⟩, ⟨rfl, rfl⟩, rfl, rfl, rfl, rfl⟩
  · simp [CtcEngine.process, CtcEngine.res_l, CtcEngine.l_0, CtcEngine.ct_r_90]
  · simp [CtcEngine.process, CtcEngine.res_r, CtcEngine.r_0, CtcEngine.ct_l_90]

/-- C2: within one call of `CtcEngine::process`, the 90° cancellation rings
are read before they are written.  Concretely: (i) replacing the components
that produce the current call's feedback write (the B chains and the high-pass
DC blockers) changes neither the outputs nor the values written into the main
rings — so the cancellation taps used by the sums cannot depend on anything
written into the 90° rings during the same call; and (ii) the post-call 90°
rings are exactly the pre-call rings overwritten at the pre-call write index,
so the taps were computed from samples written in strictly earlier calls. -/
theorem c2_tap_read_precedes_feedback_write (isFin : ℚ → Bool) (e : CtcEngine)
    (fbl fbr : List PrimaryFilter) (hpfl hpfr : BiquadFilter)
    (l r attenuation : ℚ) (amp_factors : Fin 4 → ℚ) :
    (({ e with filter_b_l := fbl, filter_b_r := fbr, high_pass_l := hpfl, high_pass_r := hpfr } : CtcEngine).process
          isFin l r attenuation amp_factors).1
        = (e.process isFin l r attenuation amp_factors).1
    ∧ (({ e with filter_b_l := fbl, filter_b_r := fbr, high_pass_l := hpfl, high_pass_r := hpfr } : CtcEngine).process
          isFin l r attenuation amp_factors).2.rb_l_0
        = (e.process isFin l r attenuation amp_factors).2.rb_l_0
    ∧ (({ e with filter_b_l := fbl, filter_b_r := fbr, high_pass_l := hpfl, high_pass_r := hpfr } : CtcEngine).process
          isFin l r attenuation amp_factors).2.rb_r_0
        = (e.process isFin l r attenuation amp_factors).2.rb_r_0
    ∧ (e.process isFin l r attenuation amp_factors).2.rb_l_90
        = Function.update e.rb_l_90 e.rb_idx
            (e.high_pass_l.process isFin (chainFold e.filter_b_l l).1).1
    ∧ (e.process isFin l r attenuation amp_factors).2.rb_r_90
        = Function.update e.rb_r_90 e.rb_idx
            (e.high_pass_r.process isFin (chainFold e.filter_b_r r).1).1 :=
  ⟨rfl, rfl, rfl, rfl, rfl⟩

/-- C3: the two unchecked buffer accesses of `CtcEngine::get_interpolated`
always use indices in [0, 512), for every possible floored read position
(every integer, which covers every f64 delay value, the saturating `as i64`
cast, and the NaN-casts-to-0 case): `idx_a = (pos_floor as i64).rem_euclid(512)`
and `idx_b = (idx_a + 1) & 511` are always in bounds, so `process` (whose only
unchecked accesses are these) is total and never panics. -/
theorem c3_interpolation_indices_in_bounds :
    (∀ p : ℤ, interpIdxA p < 512) ∧ (∀ i : ℕ, interpIdxB i < 512) :=
  ⟨interpIdxA_lt, interpIdxB_lt⟩

/-- C4 (amended): `CtcEngine::new` performs no validation at all.  For every
configuration input — including delays exceeding the 512-frame ring length,
cutoffs at or above Nyquist and non-finite tuning values — it constructs and
returns an engine that stores the given delays unchanged; no configuration
error is reported at construction. -/
theorem c4_new_never_rejects (rcos rsin rsqrt rpow10 : ℚ → ℚ)
    (sample_rate : ℚ) (ct_delays main_delays lp_cutoffs : ℚ × ℚ)
    (hp_cutoff ls_cutoff ls_gain : ℚ) :
    (CtcEngine.new rcos rsin rsqrt rpow10 sample_rate ct_delays main_delays
        lp_cutoffs hp_cutoff ls_cutoff ls_gain).ct_delay_l = ct_delays.1
    ∧ (CtcEngine.new rcos rsin rsqrt rpow10 sample_rate ct_delays main_delays
        lp_cutoffs hp_cutoff ls_cutoff ls_gain).ct_delay_r = ct_delays.2
    ∧ (CtcEngine.new rcos rsin rsqrt rpow10 sample_rate ct_delays main_delays
        lp_cutoffs hp_cutoff ls_cutoff ls_gain).main_delay_l = main_delays.1
    ∧ (CtcEngine.new rcos rsin rsqrt rpow10 sample_rate ct_delays main_delays
        lp_cutoffs hp_cutoff ls_cutoff ls_gain).main_delay_r = main_delays.2
    ∧ (CtcEngine.new rcos rsin rsqrt rpow10 sample_rate ct_delays main_delays
        lp_cutoffs hp_cutoff ls_cutoff ls_gain).rb_idx = 0 :=
  ⟨rfl, rfl, rfl, rfl, rfl⟩

/-- C4 counterexample: with sample rate 48000, a cross-talk delay of 1000
frames (far beyond the 512-frame ring) and low-pass cutoffs of 40000 Hz (far
above the 24000 Hz Nyquist), `CtcEngine::new` still constructs and returns an
engine — storing the out-of-range delay — instead of reporting a configuration
error, refuting the claim that the engine is not created for such inputs. -/
theorem c4_counterexample :
    (CtcEngine.new (fun _ => 0) (fun _ => 0) (fun _ => 1) (fun _ => 1) 48000
      (1000, 1000) (0, 0) (40000, 40000) 20 100 0).ct_delay_l = 1000 := rfl

/-- C5: for a 512-slot buffer `B`, write index `w < 512` and delay
`d ∈ [0, 510]`, the fractional-delay read returns exactly
`B[i] + f·(B[j] − B[i])` with `p = w − d`, `i = ⌊p⌋ mod 512` (Euclidean,
always non-negative), `j = (i + 1) mod 512` and `f = p − ⌊p⌋`; in this range
the saturating i64 cast is the identity and the `& 511` wrap agrees with
`mod 512`. -/
theorem c5_get_interpolated_formula (B : Fin 512 → ℚ) (w : ℕ) (d : ℚ)
    (hw : w < 512) (hd0 : 0 ≤ d) (hd1 : d ≤ 510) :
    get_interpolated B w d
      = B ⟨(⌊(w : ℚ) - d⌋ % 512).toNat, by omega⟩
        + ((w : ℚ) - d - (⌊(w : ℚ) - d⌋ : ℚ))
          * (B ⟨((⌊(w : ℚ) - d⌋ % 512).toNat + 1) % 512, by omega⟩
             - B ⟨(⌊(w : ℚ) - d⌋ % 512).toNat, by omega⟩) := by
  have hw511 : (w : ℚ) ≤ 511 := by exact_mod_cast Nat.le_of_lt_succ hw
  have hp1 : ((-510 : ℤ) : ℚ) ≤ (w : ℚ) - d := by
    push_cast
    have : (0 : ℚ) ≤ (w : ℚ) := Nat.cast_nonneg w
    linarith
  have hfl_lb : (-510 : ℤ) ≤ ⌊(w : ℚ) - d⌋ := Int.le_floor.mpr hp1
  have hfl_ub : ⌊(w : ℚ) - d⌋ ≤ 511 := by
    have h1 : (⌊(w : ℚ) - d⌋ : ℚ) ≤ (w : ℚ) - d := Int.floor_le _
    have h2 : (⌊(w : ℚ) - d⌋ : ℚ) ≤ 511 := by linarith
    exact_mod_cast h2
  have hcast : i64_sat_cast ⌊(w : ℚ) - d⌋ = ⌊(w : ℚ) - d⌋ := by
    unfold i64_sat_cast
    rw [min_eq_right (by omega), max_eq_right (by omega)]
  have hA : interpIdxA ⌊(w : ℚ) - d⌋ = (⌊(w : ℚ) - d⌋ % 512).toNat := by
    unfold interpIdxA
    rw [hcast]
  have hB : ∀ i : ℕ, interpIdxB i = (i + 1) % 512 := fun i =>
    Nat.and_pow_two_sub_one_eq_mod (i + 1) 9
  simp only [get_interpolated, hA, hB]

/-- Witness for C5: reading buffer `B[i] = i` at write index 5 with delay 3/2
interpolates halfway between slots 3 and 4, giving 7/2. -/
theorem c5_witness :
    get_interpolated (fun i => ((i : ℕ) : ℚ)) 5 (3 / 2) = 7 / 2 := by
  rw [c5_get_interpolated_formula (fun i => ((i : ℕ) : ℚ)) 5 (3 / 2)
    (by norm_num) (by norm_num) (by norm_num)]
  norm_num [show Int.toNat 3 = 3 from rfl]

/-- C6: `calc_delay_frames` returns, for frame distances `d_XY·fs/c`,
main delays `(0, d_LL − d_RR)` when `d_LL > d_RR` (in frames) and
`(d_RR − d_LL, 0)` otherwise, and cross-talk delays
`(max 1 |d_RL − d_LL|, max 1 |d_LR − d_RR|)` (in frames); consequently both
cross-talk delays are at least 1 and at least one main delay is 0. -/
theorem c6_calc_delay_frames_formulas (sample_rate c : ℚ) (d : Fin 4 → ℚ)
    (hc : 0 < c) :
    (calc_delay_frames sample_rate d c).1
      = (if d 0 * sample_rate / c > d 3 * sample_rate / c
         then ((0 : ℚ), d 0 * sample_rate / c - d 3 * sample_rate / c)
         else (d 3 * sample_rate / c - d 0 * sample_rate / c, (0 : ℚ)))
    ∧ (calc_delay_frames sample_rate d c).2.1
        = max 1 |d 2 * sample_rate / c - d 0 * sample_rate / c|
    ∧ (calc_delay_frames sample_rate d c).2.2
        = max 1 |d 1 * sample_rate / c - d 3 * sample_rate / c|
    ∧ 1 ≤ (calc_delay_frames sample_rate d c).2.1
    ∧ 1 ≤ (calc_delay_frames sample_rate d c).2.2
    ∧ ((calc_delay_frames sample_rate d c).1.1 = 0
       ∨ (calc_delay_frames sample_rate d c).1.2 = 0) := by
  have hk : ∀ x : ℚ, x * (sample_rate / c) = x * sample_rate / c := fun x =>
    (mul_div_assoc x sample_rate c).symm
  refine ⟨?_, ?_, ?_, ?_, ?_, ?_⟩
  · simp only [calc_delay_frames, hk]
  · simp only [calc_delay_frames, hk]
  · simp only [calc_delay_frames, hk]
  · simp only [calc_delay_frames]
    exact le_max_left _ _
  · simp only [calc_delay_frames]
    exact le_max_left _ _
  · simp only [calc_delay_frames]
    split
    · exact Or.inl rfl
    · exact Or.inr rfl

/-- Witness for C6 at sample rate 48000, distances (1, 2, 2, 1) metres and
speed of sound 343: the left cross-talk delay is `max 1 |2·fs/c − 1·fs/c|`
and is at least one frame. -/
theorem c6_witness :
    (calc_delay_frames 48000 ![1, 2, 2, 1] 343).2.1
        = max 1 |(2 : ℚ) * 48000 / 343 - 1 * 48000 / 343|
    ∧ 1 ≤ (calc_delay_frames 48000 ![1, 2, 2, 1] 343).2.1 := by
  have h := c6_calc_delay_frames_formulas 48000 343 ![1, 2, 2, 1] (by norm_num)
  refine ⟨?_, h.2.2.2.1⟩
  have h2 := h.2.1
  simpa using h2

/-- C7 counterexample: at a concrete engine state (`clipEngine`, whose main
ring holds a sample of magnitude 7 from an earlier step) with inputs 0,
attenuation 0 and amplitude factors 0 — all satisfying the claim's bounds —
the left output equals 1 exactly, so the output is NOT strictly within
(−1, 1); the final clamp only guarantees the closed interval [−1, 1]. -/
theorem c7_counterexample :
    (clipEngine.process (fun _ => true) 0 0 0 (fun _ => 0)).1 = (1, 0)
    ∧ ¬ ((clipEngine.process (fun _ => true) 0 0 0 (fun _ => 0)).1).1 < 1 := by
  have key : (clipEngine.process (fun _ => true) 0 0 0 (fun _ => 0)).1 = (1, 0) := by
    simp only [clipEngine, CtcEngine.process, CtcEngine.new]
    simp only [get_interpolated_zero, chainFold_all_pass_zero,
      BiquadFilter.low_pass, BiquadFilter.high_pass, BiquadFilter.low_shelf,
      BiquadFilter.new]
    norm_num [biquad_process_zero]
    rw [get_interpolated_idx_one_delay_one, get_interpolated_idx_one_delay_zero]
    rw [Function.update_apply, Function.update_apply]
    norm_num [Fin.ext_iff, clampQ]
  refine ⟨key, ?_⟩
  rw [key]
  norm_num

/-- C7 (amended): for every engine state, inputs with `|l|, |r| ≤ 1`,
attenuation in [0, 1] and amplitude factors in [0, 1]⁴, both components of the
value returned by `CtcEngine::process` lie in the closed interval [−1, 1]
(the final clamp); they can equal ±1 exactly, so the closed bound is tight. -/
theorem c7_output_clamped (isFin : ℚ → Bool) (e : CtcEngine)
    (l r attenuation : ℚ) (amp_factors : Fin 4 → ℚ)
    (hl : |l| ≤ 1) (hr : |r| ≤ 1)
    (ha0 : 0 ≤ attenuation) (ha1 : attenuation ≤ 1)
    (hk : ∀ i, 0 ≤ amp_factors i ∧ amp_factors i ≤ 1) :
    (-1 ≤ ((e.process isFin l r attenuation amp_factors).1).1
      ∧ ((e.process isFin l r attenuation amp_factors).1).1 ≤ 1)
    ∧ (-1 ≤ ((e.process isFin l r attenuation amp_factors).1).2
      ∧ ((e.process isFin l r attenuation amp_factors).1).2 ≤ 1) :=
  ⟨clampQ_mem _ (-1) 1 (by norm_num), clampQ_mem _ (-1) 1 (by norm_num)⟩

/-- Witness for the amended C7: a freshly constructed engine processing
silence produces outputs inside [−1, 1]. -/
theorem c7_witness :
    (-1 ≤ (((CtcEngine.new (fun _ => 0) (fun _ => 0) (fun _ => 1) (fun _ => 1)
          48000 (8, 8) (0, 0) (200, 200) 20 100 0).process
        (fun _ => true) 0 0 0 (fun _ => 0)).1).1
      ∧ (((CtcEngine.new (fun _ => 0) (fun _ => 0) (fun _ => 1) (fun _ => 1)
          48000 (8, 8) (0, 0) (200, 200) 20 100 0).process
        (fun _ => true) 0 0 0 (fun _ => 0)).1).1 ≤ 1)
    ∧ (-1 ≤ (((CtcEngine.new (fun _ => 0) (fun _ => 0) (fun _ => 1) (fun _ => 1)
          48000 (8, 8) (0, 0) (200, 200) 20 100 0).process
        (fun _ => true) 0 0 0 (fun _ => 0)).1).2
      ∧ (((CtcEngine.new (fun _ => 0) (fun _ => 0) (fun _ => 1) (fun _ => 1)
          48000 (8, 8) (0, 0) (200, 200) 20 100 0).process
        (fun _ => true) 0 0 0 (fun _ => 0)).1).2 ≤ 1) :=
  c7_output_clamped (fun _ => true) _ 0 0 0 (fun _ => 0)
    (by norm_num) (by norm_num) (by norm_num) (by norm_num)
    (fun i => by norm_num)

/-- C8: for every distance quadruple with all entries positive, the amplitude
factors `amp[i] = (m / d[i])^1.2` with `m` the minimum of the four distances
satisfy: the factor of a path attaining the minimum distance equals 1 exactly,
and all factors lie in (0, 1] — the nearest path is preserved at unity. -/
theorem c8_amp_normalization (d : Fin 4 → ℝ) (hpos : ∀ i, 0 < d i) (i0 : Fin 4)
    (hmin : d i0 = min_distance d) :
    amp_factors_of d i0 = 1
    ∧ ∀ i, 0 < amp_factors_of d i ∧ amp_factors_of d i ≤ 1 := by
  have hm : 0 < min_distance d :=
    lt_min (lt_min (lt_min (hpos 0) (hpos 1)) (hpos 2)) (hpos 3)
  have hle : ∀ i, min_distance d ≤ d i := by
    intro i
    fin_cases i
    · exact le_trans (le_trans (min_le_left _ _) (min_le_left _ _)) (min_le_left _ _)
    · exact le_trans (le_trans (min_le_left _ _) (min_le_left _ _)) (min_le_right _ _)
    · exact le_trans (min_le_left _ _) (min_le_right _ _)
    · exact min_le_right _ _
  refine ⟨?_, fun i => ⟨?_, ?_⟩⟩
  · unfold amp_factors_of
    rw [← hmin, div_self (ne_of_gt (hpos i0))]
    exact Real.one_rpow _
  · exact Real.rpow_pos_of_pos (div_pos hm (hpos i)) _
  · exact Real.rpow_le_one (le_of_lt (div_pos hm (hpos i)))
      ((div_le_one (hpos i)).mpr (hle i)) (by norm_num)

/-- Witness for C8 at distances (1, 2, 2, 1): the first path attains the
minimum and its amplitude factor is exactly 1; all factors lie in (0, 1]. -/
theorem c8_witness :
    amp_factors_of ![1, 2, 2, 1] 0 = 1
    ∧ ∀ i, 0 < amp_factors_of ![1, 2, 2, 1] i ∧ amp_factors_of ![1, 2, 2, 1] i ≤ 1 :=
  c8_amp_normalization ![1, 2, 2, 1]
    (by intro i; fin_cases i <;> norm_num) 0
    (by norm_num [min_distance, min_def])

/-- C9: for every biquad state and input, when the computed output
`y = b0·x + z1` is non-finite, `BiquadFilter::process` resets the state to
`z1 = z2 = 0` and returns 0; when `y` is finite, the state is never reset but
updated by the direct-form-II-transposed recurrence
`z1 = b1·x − a1·y + z2`, `z2 = b2·x − a2·y`. -/
theorem c9_biquad_branches (isFin : ℚ → Bool) (f : BiquadFilter) (x : ℚ) :
    (isFin (f.b0 * x + f.z1) = false →
      f.process isFin x = (0, { f with z1 := 0, z2 := 0 }))
    ∧ (isFin (f.b0 * x + f.z1) = true →
      (f.process isFin x).2
        = { f with z1 := f.b1 * x - f.a1 * (f.b0 * x + f.z1) + f.z2,
                   z2 := f.b2 * x - f.a2 * (f.b0 * x + f.z1) }) := by
  constructor <;> intro h <;> simp [BiquadFilter.process, h]

/-- Witness for C9: with a non-finite output the concrete filter resets and
emits 0; with a finite output the same filter updates its state by the
recurrence (to `z1 = −19`, `z2 = −32`). -/
theorem c9_witness :
    (⟨1, 2, 3, 4, 5, 6, 7⟩ : BiquadFilter).process (fun _ => false) 1
        = (0, (⟨1, 2, 3, 4, 5, 0, 0⟩ : BiquadFilter))
    ∧ ((⟨1, 2, 3, 4, 5, 6, 7⟩ : BiquadFilter).process (fun _ => true) 1).2
        = (⟨1, 2, 3, 4, 5, -19, -32⟩ : BiquadFilter) := by
  constructor
  · exact (c9_biquad_branches (fun _ => false) ⟨1, 2, 3, 4, 5, 6, 7⟩ 1).1 rfl
  · have h := (c9_biquad_branches (fun _ => true) ⟨1, 2, 3, 4, 5, 6, 7⟩ 1).2 rfl
    rw [h]
    norm_num [BiquadFilter.mk.injEq]

/-- C10 (amended): when the computed output `y = b0·x + z1` is finite but
`|y| < f64::EPSILON`, `process` returns 0 while still updating `z1`, `z2`
with the unflushed `y`; the flush changes only the returned sample, never the
state — the post-state equals that of an unflushed filter — so a subsequent
output agrees with the unflushed filter whenever that output is not itself
flushed (`|y₂| ≥ EPSILON`). -/
theorem c10_flush_semantics (isFin : ℚ → Bool) (f : BiquadFilter) (x : ℚ)
    (hfin : isFin (f.b0 * x + f.z1) = true)
    (hsmall : |f.b0 * x + f.z1| < f64_eps) :
    (f.process isFin x).1 = 0
    ∧ (f.processUnflushed isFin x).1 = f.b0 * x + f.z1
    ∧ (f.process isFin x).2 = (f.processUnflushed isFin x).2
    ∧ ∀ x2 : ℚ,
        f64_eps ≤ |(f.process isFin x).2.b0 * x2 + (f.process isFin x).2.z1| →
        ((f.process isFin x).2.process isFin x2).1
          = ((f.processUnflushed isFin x).2.processUnflushed isFin x2).1 := by
  have hstate : (f.process isFin x).2 = (f.processUnflushed isFin x).2 := by
    simp [BiquadFilter.process, BiquadFilter.processUnflushed, hfin]
  refine ⟨?_, ?_, hstate, ?_⟩
  · simp [BiquadFilter.process, hfin, hsmall]
  · simp [BiquadFilter.processUnflushed, hfin]
  · intro x2 hbig
    rw [← hstate]
    set g := (f.process isFin x).2 with hg
    simp only [BiquadFilter.process, BiquadFilter.processUnflushed]
    rcases hf2 : isFin (g.b0 * x2 + g.z1) with hfalse | htrue
    · simp [hf2]
    · simp [hf2, not_lt.mpr hbig]

/-- Witness for the amended C10: a filter with `b0 = 2^(−60)`, `b1 = 1` fed
the sample 1 produces a flushed-to-zero output while its state follows the
unflushed recurrence, and later unflushed outputs agree. -/
theorem c10_witness :
    ((⟨1 / 2 ^ 60, 1, 0, 0, 0, 0, 0⟩ : BiquadFilter).process (fun _ => true) 1).1 = 0
    ∧ ((⟨1 / 2 ^ 60, 1, 0, 0, 0, 0, 0⟩ : BiquadFilter).processUnflushed (fun _ => true) 1).1
        = (⟨1 / 2 ^ 60, 1, 0, 0, 0, 0, 0⟩ : BiquadFilter).b0 * 1
          + (⟨1 / 2 ^ 60, 1, 0, 0, 0, 0, 0⟩ : BiquadFilter).z1
    ∧ ((⟨1 / 2 ^ 60, 1, 0, 0, 0, 0, 0⟩ : BiquadFilter).process (fun _ => true) 1).2
        = ((⟨1 / 2 ^ 60, 1, 0, 0, 0, 0, 0⟩ : BiquadFilter).processUnflushed (fun _ => true) 1).2
    ∧ ∀ x2 : ℚ,
        f64_eps ≤ |((⟨1 / 2 ^ 60, 1, 0, 0, 0, 0, 0⟩ : BiquadFilter).process (fun _ => true) 1).2.b0 * x2
            + ((⟨1 / 2 ^ 60, 1, 0, 0, 0, 0, 0⟩ : BiquadFilter).process (fun _ => true) 1).2.z1| →
        (((⟨1 / 2 ^ 60, 1, 0, 0, 0, 0, 0⟩ : BiquadFilter).process (fun _ => true) 1).2.process
            (fun _ => true) x2).1
          = (((⟨1 / 2 ^ 60, 1, 0, 0, 0, 0, 0⟩ : BiquadFilter).processUnflushed (fun _ => true) 1).2.processUnflushed
            (fun _ => true) x2).1 :=
  c10_flush_semantics (fun _ => true) ⟨1 / 2 ^ 60, 1, 0, 0, 0, 0, 0⟩ 1 rfl
    (by norm_num [f64_eps, abs_of_pos])

/-- C10 counterexample: for the filter `b0 = 2^(−60)` (all other coefficients
zero) fed the sample 1 twice, the first output is flushed (finite, below
epsilon), but the SECOND output of the flushing filter (0) differs from the
second output of the unflushed filter (2^(−60)): subsequent outputs are NOT
always identical to those of an unflushed filter, because a subsequent output
below epsilon is flushed again. -/
theorem c10_counterexample :
    ((fun _ => true : ℚ → Bool) ((⟨1 / 2 ^ 60, 0, 0, 0, 0, 0, 0⟩ : BiquadFilter).b0 * 1
        + (⟨1 / 2 ^ 60, 0, 0, 0, 0, 0, 0⟩ : BiquadFilter).z1) = true
      ∧ |(⟨1 / 2 ^ 60, 0, 0, 0, 0, 0, 0⟩ : BiquadFilter).b0 * 1
          + (⟨1 / 2 ^ 60, 0, 0, 0, 0, 0, 0⟩ : BiquadFilter).z1| < f64_eps)
    ∧ (((⟨1 / 2 ^ 60, 0, 0, 0, 0, 0, 0⟩ : BiquadFilter).process (fun _ => true) 1).2.process
          (fun _ => true) 1).1
        ≠ (((⟨1 / 2 ^ 60, 0, 0, 0, 0, 0, 0⟩ : BiquadFilter).processUnflushed (fun _ => true) 1).2.processUnflushed
          (fun _ => true) 1).1 := by
  refine ⟨⟨rfl, by norm_num [f64_eps, abs_of_pos]⟩, ?_⟩
  norm_num [BiquadFilter.process, BiquadFilter.processUnflushed, f64_eps, abs_of_pos]
